/-
Verification of the change-aggregation and view-synchronization layer of the
nutrient-web-text-comparison-custom-ui repository.

The embedding models the code of `src/app/page.tsx` (the full-featured page,
here called the "main" variant) and the older `src/src/app/page.tsx` variant
(here the "pageTsx" variant).  External SDK calls (annotation creation) are
modelled by threading an identifier oracle `ids : Nat -> Option String`
giving the identifier the engine returns for the n-th creation call
(`none` models a creation call whose returned array is empty, so that
`created.length > 0 ? created[0].id : null` yields null).
-/
import Mathlib

namespace TextComparison

/-- A rectangle as carried by a text block: `rect[0] = left (x)`,
`rect[1] = top (y)`, `rect[2] = width`, `rect[3] = height`. -/
structure Rect where
  left : Int
  top : Int
  width : Int
  height : Int
deriving DecidableEq, Repr

/-- The coordinate key built by the code:
the template literal `${rect[0]},${rect[1]}`. -/
def coordinateKey (r : Rect) : String :=
  toString r.left ++ "," ++ toString r.top

/-- The tag of a diff operation returned by the comparison engine. -/
inductive OpType where
  | equal
  | delete
  | insertOp
deriving DecidableEq, Repr

/-- One diff operation: its tag, its text, and the first text block's
rectangle on each side (`originalTextBlocks[0].rect` and
`changedTextBlocks[0].rect`). -/
structure Operation where
  type : OpType
  text : String
  originalRect : Rect
  changedRect : Rect
deriving DecidableEq, Repr

/-- The `ChangeOperation` record of the sidebar map.  Optional fields of the
TypeScript interface are `Option`s; the boolean flags are only ever written
as `true` by the code, absence is modelled as `false`; `annotationIds`
defaults to the empty list (the code reads it as `existing.annotationIds || []`). -/
structure ChangeOperation where
  deleteText : Option String := none
  insertText : Option String := none
  del : Bool := false
  insert : Bool := false
  pageIndex : Option Nat := none
  originalRect : Option Rect := none
  changedRect : Option Rect := none
  annotationIds : List String := []
deriving DecidableEq, Repr

/-- An insertion-ordered JavaScript `Map<string, ChangeOperation>` as its
entry list. -/
abbrev ChangeMap := List (String × ChangeOperation)

/-- `m.has(k)`. -/
def mapHas (m : ChangeMap) (k : String) : Bool :=
  m.any (fun e => e.1 == k)

/-- `m.get(k)` (first matching entry; a JS map has at most one). -/
def mapGet (m : ChangeMap) (k : String) : Option ChangeOperation :=
  (m.find? (fun e => e.1 == k)).map (fun e => e.2)

/-- `m.set(k, v)`: update in place when the key exists (keeping its
position), otherwise append the new entry. -/
def mapSet (m : ChangeMap) (k : String) (v : ChangeOperation) : ChangeMap :=
  if mapHas m k then
    m.map (fun e => if e.1 == k then (k, v) else e)
  else
    m ++ [(k, v)]

/-- `new Map(entries)`: insert the entries left to right. -/
def mapFromEntries (l : List (String × ChangeOperation)) : ChangeMap :=
  l.foldl (fun m e => mapSet m e.1 e.2) []

/-- `new Map([...a, ...b])`, the cross-page merge used by
`operationsRef.current = new Map([...operationsRef.current, ...changes])`. -/
def mergeMaps (a b : ChangeMap) : ChangeMap :=
  mapFromEntries (a ++ b)

/-- An RGB color. -/
structure Color where
  r : Nat
  g : Nat
  b : Nat
deriving DecidableEq, Repr

/-- Light red used for deletion highlights. -/
def deleteHighlightColor : Color := ⟨255, 201, 203⟩

/-- Light blue used for insertion highlights. -/
def insertHighlightColor : Color := ⟨192, 216, 239⟩

/-- A highlight annotation created through the engine, together with the
identifier the engine returned for it (`none` when the creation call
returned no created object). -/
structure CreatedAnnotation where
  pageIndex : Nat
  rect : Rect
  color : Color
  annId : Option String
deriving DecidableEq, Repr

/-- State threaded through the processing of one page's operations:
the page's `changes` map, the annotations created so far in each viewer
instance, and the index of the next engine creation call (consumed by the
identifier oracle). -/
structure AggState where
  changes : ChangeMap := []
  originalAnns : List CreatedAnnotation := []
  changedAnns : List CreatedAnnotation := []
  counter : Nat := 0
deriving DecidableEq, Repr

/-- `annotationId ? [annotationId] : []`. -/
def optToList (o : Option String) : List String :=
  match o with
  | none => []
  | some a => [a]

/-- Create a highlight annotation in the original-document instance and
return the identifier the engine reported. -/
def createOriginalAnn (ids : Nat → Option String) (p : Nat) (r : Rect)
    (c : Color) (s : AggState) : Option String × AggState :=
  let aid := ids s.counter
  (aid, { s with originalAnns := s.originalAnns ++ [⟨p, r, c, aid⟩],
                 counter := s.counter + 1 })

/-- Create a highlight annotation in the changed-document instance and
return the identifier the engine reported. -/
def createChangedAnn (ids : Nat → Option String) (p : Nat) (r : Rect)
    (c : Color) (s : AggState) : Option String × AggState :=
  let aid := ids s.counter
  (aid, { s with changedAnns := s.changedAnns ++ [⟨p, r, c, aid⟩],
                 counter := s.counter + 1 })

/-- `processOperation` of the main variant: a standalone delete keys by the
original-document rectangle origin and creates one highlight in the original
view; a standalone insert keys by the changed-document rectangle origin and
creates one highlight in the changed view; in both cases an existing entry
at the key is spread into the new object and the new annotation identifier
is appended.  The switch has no `equal` case. -/
def processOperation (ids : Nat → Option String) (pageIndex : Nat)
    (op : Operation) (s : AggState) : AggState :=
  match op.type with
  | .delete =>
    let coordinate := coordinateKey op.originalRect
    let res := createOriginalAnn ids pageIndex op.originalRect deleteHighlightColor s
    let aid := res.1
    let s1 := res.2
    match mapGet s1.changes coordinate with
    | some existing =>
      { s1 with changes := mapSet s1.changes coordinate (
          { existing with
            deleteText := some op.text
            del := true
            pageIndex := some pageIndex
            originalRect := some op.originalRect
            annotationIds := existing.annotationIds ++ optToList aid }) }
    | none =>
      { s1 with changes := mapSet s1.changes coordinate (
          { deleteText := some op.text
            del := true
            pageIndex := some pageIndex
            originalRect := some op.originalRect
            annotationIds := optToList aid }) }
  | .insertOp =>
    let coordinate := coordinateKey op.changedRect
    let res := createChangedAnn ids pageIndex op.changedRect insertHighlightColor s
    let aid := res.1
    let s1 := res.2
    match mapGet s1.changes coordinate with
    | some existing =>
      { s1 with changes := mapSet s1.changes coordinate (
          { existing with
            insertText := some op.text
            insert := true
            pageIndex := some pageIndex
            changedRect := some op.changedRect
            annotationIds := existing.annotationIds ++ optToList aid }) }
    | none =>
      { s1 with changes := mapSet s1.changes coordinate (
          { insertText := some op.text
            insert := true
            pageIndex := some pageIndex
            changedRect := some op.changedRect
            annotationIds := optToList aid }) }
  | .equal => s

/-- The replacement branch of the cursor walk: a delete immediately followed
by an insert.  The key is the delete operation's original-document rectangle
origin; one highlight is created per view; the entry written is a fresh
object (it does not spread an existing entry at the key). -/
def replacementStep (ids : Nat → Option String) (p : Nat)
    (deleteOp insertOp2 : Operation) (s : AggState) : AggState :=
  let coordinate := coordinateKey deleteOp.originalRect
  let res1 := createOriginalAnn ids p deleteOp.originalRect deleteHighlightColor s
  let deleteAnnotationId := res1.1
  let s1 := res1.2
  let res2 := createChangedAnn ids p insertOp2.changedRect insertHighlightColor s1
  let insertAnnotationId := res2.1
  let s2 := res2.2
  { s2 with changes := mapSet s2.changes coordinate (
      { deleteText := some deleteOp.text
        insertText := some insertOp2.text
        del := true
        insert := true
        pageIndex := some p
        originalRect := some deleteOp.originalRect
        changedRect := some insertOp2.changedRect
        annotationIds := optToList deleteAnnotationId ++ optToList insertAnnotationId }) }

/-- The `while (i < operations.length)` cursor walk over the filtered
operations of one hunk: a delete at `i` whose successor at `i+1` is an
insert is handled by `replacementStep` and the cursor advances by 2;
otherwise the single operation is handled by `processOperation` and the
cursor advances by 1. -/
def processOps (ids : Nat → Option String) (p : Nat) :
    List Operation → AggState → AggState
  | [], s => s
  | [op], s => processOperation ids p op s
  | op1 :: op2 :: rest, s =>
    if op1.type = .delete ∧ op2.type = .insertOp then
      processOps ids p rest (replacementStep ids p op1 op2 s)
    else
      processOps ids p (op2 :: rest) (processOperation ids p op1 s)

/-- A hunk of the comparison result: an ordered list of operations. -/
structure Hunk where
  operations : List Operation
deriving Repr

/-- One comparison result: its hunks. -/
structure ComparisonResultEntry where
  hunks : List Hunk
deriving Repr

/-- One document comparison: its comparison results. -/
structure DocComparisonResult where
  comparisonResults : List ComparisonResultEntry
deriving Repr

/-- The value returned by the engine's `compareDocuments` call for one page:
either it carries the expected `documentComparisonResults` collection, or it
does not (a falsy value or a value without that property). -/
inductive ComparisonResult where
  | withResults (documentComparisonResults : List DocComparisonResult)
  | malformed
deriving Repr

/-- Process one hunk: filter out the `equal`-tagged operations, then run the
cursor walk. -/
def runHunk (ids : Nat → Option String) (p : Nat) (h : Hunk)
    (s : AggState) : AggState :=
  processOps ids p (h.operations.filter (fun op => op.type ≠ .equal)) s

/-- Process one page's comparison result: when the result does not carry the
expected `documentComparisonResults` collection the guarded block is skipped
entirely; otherwise iterate results, hunks and the cursor walk. -/
def processPage (ids : Nat → Option String) (p : Nat)
    (result : ComparisonResult) (s : AggState) : AggState :=
  match result with
  | .malformed => s
  | .withResults docs =>
    docs.foldl (fun s docComparison =>
      docComparison.comparisonResults.foldl (fun s r =>
        r.hunks.foldl (fun s h => runHunk ids p h s) s) s) s

/-- The cross-page accumulator: the `operationsRef.current` map, the
annotations created in each viewer instance, and the creation-call counter. -/
structure GlobalState where
  operationsMapRef : ChangeMap := []
  originalAnns : List CreatedAnnotation := []
  changedAnns : List CreatedAnnotation := []
  counter : Nat := 0
deriving Repr

/-- One iteration of the per-page loop of `compareDocuments`: start from a
fresh per-page `changes` map, process the page's comparison result, then
merge the page map into the global map with
`new Map([...operationsRef.current, ...changes])`. -/
def runPage (ids : Nat → Option String) (p : Nat)
    (result : ComparisonResult) (g : GlobalState) : GlobalState :=
  let s0 : AggState :=
    { changes := [], originalAnns := g.originalAnns,
      changedAnns := g.changedAnns, counter := g.counter }
  let s1 := processPage ids p result s0
  { operationsMapRef := mergeMaps g.operationsMapRef s1.changes,
    originalAnns := s1.originalAnns,
    changedAnns := s1.changedAnns,
    counter := s1.counter }

/-- The per-page loop of `compareDocuments` starting at page index `p`. -/
def runPages (ids : Nat → Option String) :
    Nat → List ComparisonResult → GlobalState → GlobalState
  | _, [], g => g
  | p, r :: rest, g => runPages ids (p + 1) rest (runPage ids p r g)

/-! ### The older `src/src/app/page.tsx` variant -/

/-- State of the pageTsx variant's per-page processing: the `changes` map
and the rectangle lists accumulated for the page-level highlight
annotations. -/
structure PageTsxState where
  changes : ChangeMap := []
  originalInstanceRects : List Rect := []
  changedInstanceRects : List Rect := []
deriving DecidableEq, Repr

/-- `processOperation` of the pageTsx variant.  Note that the coordinate is
computed from `operation.changedTextBlocks[0].rect` before the switch, for
delete operations as well as for insert operations. -/
def processOperationPageTsx (pageIndex : Nat) (op : Operation)
    (s : PageTsxState) : PageTsxState :=
  let coordinate := coordinateKey op.changedRect
  match op.type with
  | .delete =>
    let s1 := { s with originalInstanceRects :=
        s.originalInstanceRects ++ [op.originalRect] }
    match mapGet s1.changes coordinate with
    | some existing =>
      { s1 with changes := mapSet s1.changes coordinate (
          { existing with
            deleteText := some op.text
            del := true
            pageIndex := some pageIndex }) }
    | none =>
      { s1 with changes := mapSet s1.changes coordinate (
          { deleteText := some op.text
            del := true
            pageIndex := some pageIndex }) }
  | .insertOp =>
    let s1 := { s with changedInstanceRects :=
        s.changedInstanceRects ++ [op.changedRect] }
    match mapGet s1.changes coordinate with
    | some existing =>
      { s1 with changes := mapSet s1.changes coordinate (
          { existing with
            insertText := some op.text
            insert := true
            pageIndex := some pageIndex }) }
    | none =>
      { s1 with changes := mapSet s1.changes coordinate (
          { insertText := some op.text
            insert := true
            pageIndex := some pageIndex }) }
  | .equal => s

/-- The pageTsx variant's per-hunk loop:
`hunk.operations.forEach(op => { if (op.type !== "equal") processOperation(op) })`. -/
def runHunkPageTsx (p : Nat) (h : Hunk) (s : PageTsxState) : PageTsxState :=
  h.operations.foldl (fun s op =>
    if op.type ≠ .equal then processOperationPageTsx p op s else s) s

/-! ### Word counting -/

/-- Whitespace as matched by JavaScript's `trim` and the `\s` class,
restricted to the usual ASCII whitespace characters. -/
def isWs (c : Char) : Bool :=
  c == ' ' || c == '\t' || c == '\n' || c == '\r'

/-- `String.prototype.split(/\s+/)` on a character list: the segments of the
string lying between maximal whitespace runs, including the empty segments
produced at a boundary whitespace run (so an empty or all-whitespace input
still yields at least one, empty, segment). -/
def splitWsGo : List Char → List (List Char)
  | [] => [[]]
  | [c] => if isWs c then [[], []] else [[c]]
  | c :: c2 :: rest =>
    if isWs c then
      (if isWs c2 then splitWsGo (c2 :: rest) else [] :: splitWsGo (c2 :: rest))
    else
      match splitWsGo (c2 :: rest) with
      | seg :: segs => (c :: seg) :: segs
      | [] => [[c]]

/-- `text.split(/\s+/)`. -/
def jsSplitWs (s : String) : List String :=
  (splitWsGo s.data).map (fun cs => String.mk cs)

/-- `text.trim()` on a character list. -/
def jsTrimList (cs : List Char) : List Char :=
  ((cs.dropWhile isWs).reverse.dropWhile isWs).reverse

/-- `text.trim()`. -/
def jsTrim (s : String) : String :=
  String.mk (jsTrimList s.data)

/-- `countWords`: `text ? text.trim().split(/\s+/).length : 0`, where
`none` models an absent (`undefined`) argument and the empty string is
falsy. -/
def countWords (text : Option String) : Nat :=
  match text with
  | none => 0
  | some t => if t = "" then 0 else (jsSplitWs (jsTrim t)).length

/-- Specification-side word count, stated directly from the spec's words:
the number of maximal whitespace-separated runs of the string.  The flag
carries whether the previous character was whitespace (true at the start),
so a run is counted exactly at its first character. -/
def specRunsAux (prevWs : Bool) : List Char → Nat
  | [] => 0
  | c :: rest =>
    (if !isWs c && prevWs then 1 else 0) + specRunsAux (isWs c) rest

/-- Specification-side word count of a string. -/
def specWordRuns (s : String) : Nat :=
  specRunsAux true s.data

/-! ### The view synchronizer -/

/-- The engine's view state for one viewer instance. -/
structure ViewState where
  currentPageIndex : Nat
  zoom : Int
deriving DecidableEq, Repr

/-- The raw scroll offsets of a viewer's scroll container. -/
structure ScrollPos where
  scrollTop : Int
  scrollLeft : Int
deriving DecidableEq, Repr

/-- One viewer instance: its view state and its scroll container. -/
structure ViewerView where
  viewState : ViewState
  scroll : ScrollPos
deriving DecidableEq, Repr

/-- The state shared by the two synchronization handlers: the two viewer
instances, the scroll-lock preference (`isScrollLockedRef`) and the
re-entrancy guard (`isSyncingRef`). -/
structure SyncSystem where
  original : ViewerView
  changed : ViewerView
  isScrollLocked : Bool
  syncing : Bool
deriving DecidableEq, Repr

/-- The two synchronization directions. -/
inductive SyncDir where
  | changedToOriginal
  | originalToChanged
deriving DecidableEq, Repr

/-- The source viewer of a pass. -/
def srcView (sys : SyncSystem) (d : SyncDir) : ViewerView :=
  match d with
  | .changedToOriginal => sys.changed
  | .originalToChanged => sys.original

/-- The target viewer of a pass. -/
def tgtView (sys : SyncSystem) (d : SyncDir) : ViewerView :=
  match d with
  | .changedToOriginal => sys.original
  | .originalToChanged => sys.changed

/-- `targetInstance.setViewState(vs)`. -/
def setTgtViewState (d : SyncDir) (vs : ViewState) (sys : SyncSystem) :
    SyncSystem :=
  match d with
  | .changedToOriginal =>
    { sys with original := { sys.original with viewState := vs } }
  | .originalToChanged =>
    { sys with changed := { sys.changed with viewState := vs } }

/-- `targetScroll.scrollTop = sourceScroll.scrollTop;
targetScroll.scrollLeft = sourceScroll.scrollLeft`. -/
def copyScrollStep (d : SyncDir) (sys : SyncSystem) : SyncSystem :=
  match d with
  | .changedToOriginal =>
    { sys with original := { sys.original with scroll := sys.changed.scroll } }
  | .originalToChanged =>
    { sys with changed := { sys.changed with scroll := sys.original.scroll } }

/-- The engine calls performed inside the `try` block of one pass,
determined by the view-state snapshots taken at its start: a zoom
`setViewState` when the zooms differ, then either a page `setViewState`
(when the page indices differ) or the scroll copy (when they agree).  Both
`setViewState` calls apply the stale target snapshot `tvs`, exactly as the
code does. -/
def passSteps (sys : SyncSystem) (d : SyncDir) :
    List (SyncSystem → SyncSystem) :=
  let svs := (srcView sys d).viewState
  let tvs := (tgtView sys d).viewState
  (if tvs.zoom ≠ svs.zoom then
    [setTgtViewState d { tvs with zoom := svs.zoom }]
  else []) ++
  [if tvs.currentPageIndex ≠ svs.currentPageIndex then
    setTgtViewState d { tvs with currentPageIndex := svs.currentPageIndex }
  else
    copyScrollStep d]

/-- `isSyncingRef.current = true`. -/
def enterPass (sys : SyncSystem) : SyncSystem :=
  { sys with syncing := true }

/-- The `finally` block: `isSyncingRef.current = false`. -/
def exitPass (sys : SyncSystem) : SyncSystem :=
  { sys with syncing := false }

/-- Run a list of engine calls in order. -/
def applySteps (fs : List (SyncSystem → SyncSystem)) (s : SyncSystem) :
    SyncSystem :=
  fs.foldl (fun a f => f a) s

/-- One full synchronization pass in direction `d`: the guard
(`if (!isScrollLockedRef.current || isSyncingRef.current) return`), then
the guarded body between `enterPass` and the `finally` clearing. -/
def runSyncPass (d : SyncDir) (sys : SyncSystem) : SyncSystem :=
  if !sys.isScrollLocked || sys.syncing then sys
  else exitPass (applySteps (passSteps sys d) (enterPass sys))

/-- A pass whose `try` block throws after its first `k` engine calls: the
remaining calls are skipped and the `finally` block still runs. -/
def runSyncPassAborted (d : SyncDir) (sys : SyncSystem) (k : Nat) :
    SyncSystem :=
  if !sys.isScrollLocked || sys.syncing then sys
  else exitPass (applySteps ((passSteps sys d).take k) (enterPass sys))

/-- `syncChangedToOriginal`. -/
def syncChangedToOriginal (sys : SyncSystem) : SyncSystem :=
  runSyncPass .changedToOriginal sys

/-- `syncOriginalToChanged`. -/
def syncOriginalToChanged (sys : SyncSystem) : SyncSystem :=
  runSyncPass .originalToChanged sys

/-- `toggleScrollLock`: flip the preference in both the state and the ref. -/
def toggleScrollLock (sys : SyncSystem) : SyncSystem :=
  { sys with isScrollLocked := !sys.isScrollLocked }

/-! ### Sidebar navigation -/

/-- The component state read by the navigation handlers. -/
structure NavState where
  operationsMap : ChangeMap
  selectedChangeIndex : Nat
  instancesReady : Bool
deriving Repr

/-- An observable effect of a navigation handler. -/
inductive NavEffect where
  | scrollOriginal (page : Nat)
  | scrollChanged (page : Nat)
  | highlightChange (op : ChangeOperation)
deriving DecidableEq, Repr

/-- The shared body of both handlers once a new index has been chosen:
destructure `changesArray[newIndex]` (throwing, i.e. `none`, when out of
range), set the selected index, and when the operation has a page index and
both instance refs are set, scroll both views and redraw the selection
border. -/
def navigateTo (st : NavState) (newIndex : Nat) :
    Option (NavState × List NavEffect) :=
  match st.operationsMap.get? newIndex with
  | none => none
  | some e =>
    let operation := e.2
    let st' := { st with selectedChangeIndex := newIndex }
    match operation.pageIndex with
    | some pg =>
      if st.instancesReady then
        some (st', [NavEffect.scrollOriginal pg, NavEffect.scrollChanged pg,
                    NavEffect.highlightChange operation])
      else some (st', [])
    | none => some (st', [])

/-- `handlePreviousChange`. -/
def handlePreviousChange (st : NavState) :
    Option (NavState × List NavEffect) :=
  if st.selectedChangeIndex > 0 then
    navigateTo st (st.selectedChangeIndex - 1)
  else some (st, [])

/-- `handleNextChange` (the bound `changesArray.length - 1` is computed in
JavaScript's signed arithmetic). -/
def handleNextChange (st : NavState) :
    Option (NavState × List NavEffect) :=
  if (st.selectedChangeIndex : Int) < (st.operationsMap.length : Int) - 1 then
    navigateTo st (st.selectedChangeIndex + 1)
  else some (st, [])

/-! ### Map lemmas -/

theorem mapHas_nil (k : String) : mapHas [] k = false := rfl

theorem mapHas_cons (e : String × ChangeOperation) (t : ChangeMap)
    (k : String) : mapHas (e :: t) k = (e.1 == k || mapHas t k) := by
  simp [mapHas, List.any_cons]

theorem mapGet_eq_none_of_not_has (m : ChangeMap) (k : String)
    (h : mapHas m k = false) : mapGet m k = none := by
  induction m with
  | nil => rfl
  | cons e t ih =>
    rw [mapHas_cons] at h
    rcases Bool.or_eq_false_iff.1 h with ⟨h1, h2⟩
    simp [mapGet, List.find?_cons, h1] at *
    exact ih h2

theorem mapSet_of_not_has (m : ChangeMap) (k : String) (v : ChangeOperation)
    (h : mapHas m k = false) : mapSet m k v = m ++ [(k, v)] := by
  simp [mapSet, h]

theorem mapSet_of_has (m : ChangeMap) (k : String) (v : ChangeOperation)
    (h : mapHas m k = true) :
    mapSet m k v = m.map (fun e => if e.1 == k then (k, v) else e) := by
  simp [mapSet, h]

theorem mapGet_append_single_self (m : ChangeMap) (k : String)
    (v : ChangeOperation) (h : mapHas m k = false) :
    mapGet (m ++ [(k, v)]) k = some v := by
  induction m with
  | nil => simp [mapGet, List.find?]
  | cons e t ih =>
    rw [mapHas_cons] at h
    rcases Bool.or_eq_false_iff.1 h with ⟨h1, h2⟩
    simpa [mapGet, List.find?_cons, h1] using ih h2

theorem mapGet_map_replace_self (m : ChangeMap) (k : String)
    (v : ChangeOperation) (h : mapHas m k = true) :
    mapGet (m.map (fun e => if e.1 == k then (k, v) else e)) k = some v := by
  induction m with
  | nil => simp [mapHas] at h
  | cons e t ih =>
    rw [List.map_cons]
    by_cases he : (e.1 == k) = true
    · have hfe : (if e.1 == k then (k, v) else e) = (k, v) := if_pos he
      rw [mapGet, hfe, List.find?_cons_of_pos _ (by simp)]
      rfl
    · have he' : (e.1 == k) = false := Bool.eq_false_iff.2 he
      have hfe : (if e.1 == k then (k, v) else e) = e := if_neg he
      rw [mapHas_cons, he', Bool.false_or] at h
      rw [mapGet, hfe, List.find?_cons_of_neg _ (by simp [he'])]
      exact ih h

theorem mapGet_mapSet_self (m : ChangeMap) (k : String)
    (v : ChangeOperation) : mapGet (mapSet m k v) k = some v := by
  by_cases h : mapHas m k
  · rw [mapSet_of_has m k v h]
    exact mapGet_map_replace_self m k v h
  · rw [mapSet_of_not_has m k v (Bool.eq_false_iff.2 h)]
    exact mapGet_append_single_self m k v (Bool.eq_false_iff.2 h)

theorem mapGet_mapSet_ne (m : ChangeMap) (k k' : String)
    (v : ChangeOperation) (h : k' ≠ k) :
    mapGet (mapSet m k v) k' = mapGet m k' := by
  have hkk' : (k == k') = false := beq_eq_false_iff_ne.2 (Ne.symm h)
  by_cases hhas : mapHas m k
  · rw [mapSet_of_has m k v hhas]
    clear hhas
    induction m with
    | nil => rfl
    | cons e t ih =>
      rw [List.map_cons]
      by_cases he : (e.1 == k) = true
      · have hek : e.1 = k := eq_of_beq he
        have he' : (e.1 == k') = false := by rw [hek]; exact hkk'
        have hfe : (if e.1 == k then (k, v) else e) = (k, v) := if_pos he
        rw [mapGet, hfe, List.find?_cons_of_neg _ (by simp [hkk']),
          mapGet, List.find?_cons_of_neg _ (by simp [he'])]
        exact ih
      · have he' : (e.1 == k) = false := Bool.eq_false_iff.2 he
        have hfe : (if e.1 == k then (k, v) else e) = e := if_neg he
        rw [mapGet, hfe]
        by_cases hk' : (e.1 == k') = true
        · rw [List.find?_cons_of_pos _ (by simp [hk']),
            mapGet, List.find?_cons_of_pos _ (by simp [hk'])]
        · have hk'' : (e.1 == k') = false := Bool.eq_false_iff.2 hk'
          rw [List.find?_cons_of_neg _ (by simp [hk'']),
            mapGet, List.find?_cons_of_neg _ (by simp [hk''])]
          exact ih
  · rw [mapSet_of_not_has m k v (Bool.eq_false_iff.2 hhas)]
    clear hhas
    induction m with
    | nil =>
      rw [List.nil_append, mapGet, List.find?_cons_of_neg _ (by simp [hkk'])]
      rfl
    | cons e t ih =>
      rw [List.cons_append, mapGet]
      by_cases hk' : (e.1 == k') = true
      · rw [List.find?_cons_of_pos _ (by simp [hk']),
          mapGet, List.find?_cons_of_pos _ (by simp [hk'])]
      · have hk'' : (e.1 == k') = false := Bool.eq_false_iff.2 hk'
        rw [List.find?_cons_of_neg _ (by simp [hk'']),
          mapGet, List.find?_cons_of_neg _ (by simp [hk''])]
        exact ih

theorem mapSet_length (m : ChangeMap) (k : String) (v : ChangeOperation) :
    (mapSet m k v).length =
      if mapHas m k then m.length else m.length + 1 := by
  by_cases h : mapHas m k
  · rw [mapSet_of_has m k v h, if_pos h, List.length_map]
  · rw [mapSet_of_not_has m k v (Bool.eq_false_iff.2 h), if_neg h,
      List.length_append, List.length_singleton]

theorem mapHas_append (a b : ChangeMap) (k : String) :
    mapHas (a ++ b) k = (mapHas a k || mapHas b k) := by
  simp [mapHas, List.any_append]

theorem foldl_mapSet_of_fresh :
    ∀ (l : List (String × ChangeOperation)) (acc : ChangeMap),
      (l.map Prod.fst).Nodup → (∀ e ∈ l, mapHas acc e.1 = false) →
      l.foldl (fun m e => mapSet m e.1 e.2) acc = acc ++ l := by
  intro l
  induction l with
  | nil => intro acc _ _; simp
  | cons e t ih =>
    intro acc hnodup hfresh
    rw [List.foldl_cons,
      mapSet_of_not_has _ _ _ (hfresh e (List.mem_cons_self e t))]
    rw [List.map_cons, List.nodup_cons] at hnodup
    have h2 : ∀ e' ∈ t, mapHas (acc ++ [(e.1, e.2)]) e'.1 = false := by
      intro e' he'
      rw [mapHas_append]
      have h3 : mapHas acc e'.1 = false :=
        hfresh e' (List.mem_cons_of_mem e he')
      have hne : e.1 ≠ e'.1 := by
        intro hc
        exact hnodup.1 (hc ▸ List.mem_map_of_mem Prod.fst he')
      have h4 : mapHas [(e.1, e.2)] e'.1 = false := by
        simp [mapHas, hne]
      rw [h3, h4]
      rfl
    rw [ih (acc ++ [(e.1, e.2)]) hnodup.2 h2, List.append_assoc,
      List.singleton_append]

theorem mapFromEntries_eq_self (m : ChangeMap)
    (h : (m.map Prod.fst).Nodup) : mapFromEntries m = m := by
  unfold mapFromEntries
  rw [foldl_mapSet_of_fresh m [] h (fun e _ => rfl), List.nil_append]

/-! ### Word-count lemmas -/

/-- The number of maximal whitespace runs of a character list, counted at
the run's last character. -/
def wsRunEnds : List Char → Nat
  | [] => 0
  | [c] => if isWs c then 1 else 0
  | c :: c2 :: rest =>
    (if isWs c && !isWs c2 then 1 else 0) + wsRunEnds (c2 :: rest)

theorem splitWsGo_ne_nil : ∀ cs : List Char, splitWsGo cs ≠ [] := by
  intro cs
  induction cs with
  | nil => simp [splitWsGo]
  | cons c rest ih =>
    cases rest with
    | nil => by_cases hc : isWs c <;> simp [splitWsGo, hc]
    | cons c2 rest2 =>
      rw [splitWsGo]
      by_cases hc : isWs c
      · by_cases hc2 : isWs c2
        · simpa [hc, hc2] using ih
        · simp [hc, hc2]
      · cases hgo : splitWsGo (c2 :: rest2) with
        | nil => exact absurd hgo ih
        | cons seg segs => simp [hc, hgo]

theorem splitWsGo_length :
    ∀ cs : List Char, (splitWsGo cs).length = 1 + wsRunEnds cs := by
  intro cs
  induction cs with
  | nil => rfl
  | cons c rest ih =>
    cases rest with
    | nil =>
      by_cases hc : isWs c <;> simp [splitWsGo, wsRunEnds, hc]
    | cons c2 rest2 =>
      rw [splitWsGo, wsRunEnds]
      by_cases hc : isWs c
      · by_cases hc2 : isWs c2
        · simp [hc, hc2, ih]
        · have hc2' : isWs c2 = false := Bool.eq_false_iff.2 hc2
          simp only [hc, hc2', if_pos rfl, Bool.not_false, Bool.and_true,
            Bool.false_eq_true, if_neg (fun hcon => Bool.false_ne_true hcon),
            List.length_cons, ih, if_true, if_false]
          omega
      · cases hgo : splitWsGo (c2 :: rest2) with
        | nil => exact absurd hgo (splitWsGo_ne_nil _)
        | cons seg segs =>
          have hc' : isWs c = false := Bool.eq_false_iff.2 hc
          rw [hgo] at ih
          simp only [hc', Bool.false_and, Bool.false_eq_true,
            if_neg (fun hcon => Bool.false_ne_true hcon), hgo,
            List.length_cons, if_true, if_false] at ih ⊢
          omega

/-- Whether a character list starts with a non-whitespace character. -/
def headNotWs : List Char → Bool
  | [] => false
  | c :: _ => !isWs c

theorem specRunsAux_eq_ends :
    ∀ (cs : List Char) (p : Bool),
      (∀ c, cs.getLast? = some c → isWs c = false) →
      specRunsAux p cs = wsRunEnds cs +
        (if p && headNotWs cs then 1 else 0) := by
  intro cs
  induction cs with
  | nil => intro p _; simp [specRunsAux, wsRunEnds, headNotWs]
  | cons c rest ih =>
    intro p hlast
    cases rest with
    | nil =>
      have hc : isWs c = false := hlast c rfl
      simp [specRunsAux, wsRunEnds, headNotWs, hc]
    | cons c2 rest2 =>
      have hlast2 : ∀ x, (c2 :: rest2).getLast? = some x → isWs x = false := by
        intro x hx
        exact hlast x (by rwa [List.getLast?_cons_cons])
      rw [specRunsAux, wsRunEnds, ih (isWs c) hlast2]
      cases hc : isWs c <;> cases hp : p <;> cases hc2 : isWs c2 <;>
        simp [headNotWs, hc, hp, hc2] <;> omega

theorem head?_dropWhile_isWs :
    ∀ (l : List Char) (c : Char),
      (l.dropWhile isWs).head? = some c → isWs c = false := by
  intro l
  induction l with
  | nil => intro c h; cases h
  | cons a t ih =>
    intro c h
    rw [List.dropWhile_cons] at h
    by_cases ha : isWs a
    · rw [if_pos ha] at h
      exact ih c h
    · rw [if_neg ha] at h
      cases h
      exact Bool.eq_false_iff.2 ha

theorem getLast?_dropWhile (p : Char → Bool) :
    ∀ l : List Char, l.dropWhile p ≠ [] →
      (l.dropWhile p).getLast? = l.getLast? := by
  intro l
  induction l with
  | nil => intro h; exact absurd rfl h
  | cons a t ih =>
    intro h
    by_cases ha : p a
    · rw [List.dropWhile_cons, if_pos ha] at h ⊢
      have ht : t ≠ [] := by
        intro hc; subst hc; exact h rfl
      rw [ih h]
      cases t with
      | nil => exact absurd rfl ht
      | cons b u => rw [List.getLast?_cons_cons]
    · rw [List.dropWhile_cons, if_neg ha]

theorem jsTrimList_head (cs : List Char) :
    ∀ c, (jsTrimList cs).head? = some c → isWs c = false := by
  intro c h
  unfold jsTrimList at h
  rw [List.head?_reverse] at h
  by_cases hB : ((cs.dropWhile isWs).reverse.dropWhile isWs) = []
  · rw [hB] at h; cases h
  · rw [getLast?_dropWhile isWs _ hB, List.getLast?_reverse] at h
    exact head?_dropWhile_isWs cs c h

theorem jsTrimList_last (cs : List Char) :
    ∀ c, (jsTrimList cs).getLast? = some c → isWs c = false := by
  intro c h
  unfold jsTrimList at h
  rw [List.getLast?_reverse] at h
  exact head?_dropWhile_isWs _ c h

theorem jsTrim_eq_empty_iff (s : String) :
    jsTrim s = "" ↔ jsTrimList s.data = [] := by
  constructor
  · intro h
    exact congrArg String.data h
  · intro h
    unfold jsTrim
    rw [h]

theorem countWords_of_ne_empty (s : String) (h : s ≠ "") :
    countWords (some s) = 1 + wsRunEnds (jsTrimList s.data) := by
  have h0 : countWords (some s) =
      if s = "" then 0 else (jsSplitWs (jsTrim s)).length := rfl
  rw [h0, if_neg h]
  unfold jsSplitWs
  rw [List.length_map]
  exact splitWsGo_length (jsTrim s).data

theorem specWordRuns_trim (s : String) (ht : jsTrimList s.data ≠ []) :
    specWordRuns (jsTrim s) = wsRunEnds (jsTrimList s.data) + 1 := by
  unfold specWordRuns
  have hd : (jsTrim s).data = jsTrimList s.data := rfl
  rw [hd]
  rw [specRunsAux_eq_ends (jsTrimList s.data) true (jsTrimList_last s.data)]
  cases hcs : jsTrimList s.data with
  | nil => exact absurd hcs ht
  | cons c rest =>
    have hc : isWs c = false := by
      apply jsTrimList_head s.data
      rw [hcs]
      rfl
    simp [headNotWs, hc]

/-! ### Synchronizer lemmas -/

theorem passSteps_preserve {sys : SyncSystem} {d : SyncDir} :
    ∀ f ∈ passSteps sys d, ∀ s : SyncSystem,
      (f s).syncing = s.syncing ∧ (f s).isScrollLocked = s.isScrollLocked := by
  intro f hf s
  unfold passSteps at hf
  rcases List.mem_append.1 hf with h | h
  · by_cases hz : (tgtView sys d).viewState.zoom ≠ (srcView sys d).viewState.zoom
    · rw [if_pos hz] at h
      rcases List.mem_singleton.1 h with rfl
      cases d <;> simp [setTgtViewState]
    · rw [if_neg hz] at h
      cases h
  · rcases List.mem_singleton.1 h with rfl
    by_cases hp : (tgtView sys d).viewState.currentPageIndex ≠
        (srcView sys d).viewState.currentPageIndex
    · rw [if_pos hp]
      cases d <;> simp [setTgtViewState]
    · rw [if_neg hp]
      cases d <;> simp [copyScrollStep]

theorem applySteps_preserve :
    ∀ (fs : List (SyncSystem → SyncSystem)),
      (∀ f ∈ fs, ∀ s : SyncSystem,
        (f s).syncing = s.syncing ∧ (f s).isScrollLocked = s.isScrollLocked) →
      ∀ s : SyncSystem, (applySteps fs s).syncing = s.syncing ∧
        (applySteps fs s).isScrollLocked = s.isScrollLocked := by
  intro fs
  induction fs with
  | nil => intro _ s; exact ⟨rfl, rfl⟩
  | cons f t ih =>
    intro h s
    have h1 := h f (List.mem_cons_self f t) s
    have h2 := ih (fun g hg => h g (List.mem_cons_of_mem f hg)) (f s)
    unfold applySteps at h2 ⊢
    rw [List.foldl_cons]
    exact ⟨h2.1.trans h1.1, h2.2.trans h1.2⟩

theorem midPass_syncing (sys : SyncSystem) (d : SyncDir) (j : Nat) :
    (applySteps ((passSteps sys d).take j) (enterPass sys)).syncing = true := by
  have h := applySteps_preserve ((passSteps sys d).take j)
    (fun f hf => passSteps_preserve f (List.take_subset j _ hf))
    (enterPass sys)
  rw [h.1]
  rfl

theorem runSyncPass_of_syncing (d : SyncDir) (m : SyncSystem)
    (h : m.syncing = true) : runSyncPass d m = m := by
  unfold runSyncPass
  rw [h, Bool.or_true]
  rfl

theorem runSyncPass_run (d : SyncDir) (sys : SyncSystem)
    (hl : sys.isScrollLocked = true) (hs : sys.syncing = false) :
    runSyncPass d sys = exitPass (applySteps (passSteps sys d) (enterPass sys)) := by
  unfold runSyncPass
  rw [hl, hs]
  rfl

theorem runSyncPass_not_locked (d : SyncDir) (sys : SyncSystem)
    (hl : sys.isScrollLocked = false) : runSyncPass d sys = sys := by
  unfold runSyncPass
  rw [hl]
  rfl

/-! ### Example inputs -/

/-- An identifier oracle under which every creation call returns an
identifier: the n-th call returns the decimal string of n. -/
def exIds : Nat → Option String := fun n => some (toString n)

/-- The delete operation of the spec's example scenario:
`delete("old text", rect=[10,20,50,12])`. -/
def exDeleteOp : Operation :=
  ⟨.delete, "old text", ⟨10, 20, 50, 12⟩, ⟨0, 0, 0, 0⟩⟩

/-- The insert operation of the spec's example scenario:
`insert("new words", rect=[10,20,60,12])`. -/
def exInsertOp : Operation :=
  ⟨.insertOp, "new words", ⟨0, 0, 0, 0⟩, ⟨10, 20, 60, 12⟩⟩

/-! ### C1 -/

/-- C1: in the main aggregator's cursor walk, a delete at cursor `i`
immediately followed by an insert at `i + 1` is handled as one replacement:
the walk consumes both operations (the cursor advances by 2), writes a
single ChangeOperation keyed by the delete operation's original-document
rectangle origin with `deleteText` and `insertText` both set, both flags
true, both rectangles set and both created annotation identifiers recorded,
and creates exactly one highlight annotation in each view; the page map
gains at most this one entry. -/
theorem c1_replacement_single_entry
    (ids : Nat → Option String) (p : Nat) (d i : Operation)
    (rest : List Operation) (s : AggState) (a b : String)
    (hd : d.type = .delete) (hi : i.type = .insertOp)
    (ha : ids s.counter = some a) (hb : ids (s.counter + 1) = some b) :
    processOps ids p (d :: i :: rest) s =
      processOps ids p rest (replacementStep ids p d i s) ∧
    (replacementStep ids p d i s).changes =
      mapSet s.changes (coordinateKey d.originalRect)
        { deleteText := some d.text, insertText := some i.text,
          del := true, insert := true, pageIndex := some p,
          originalRect := some d.originalRect,
          changedRect := some i.changedRect,
          annotationIds := [a, b] } ∧
    (replacementStep ids p d i s).originalAnns =
      s.originalAnns ++ [⟨p, d.originalRect, deleteHighlightColor, some a⟩] ∧
    (replacementStep ids p d i s).changedAnns =
      s.changedAnns ++ [⟨p, i.changedRect, insertHighlightColor, some b⟩] ∧
    (replacementStep ids p d i s).changes.length =
      (if mapHas s.changes (coordinateKey d.originalRect) then
        s.changes.length
      else s.changes.length + 1) := by
  refine ⟨?_, ?_, ?_, ?_, ?_⟩
  · rw [processOps, if_pos ⟨hd, hi⟩]
  · simp [replacementStep, createOriginalAnn, createChangedAnn, ha, hb,
      optToList]
  · simp [replacementStep, createOriginalAnn, createChangedAnn, ha, hb]
  · simp [replacementStep, createOriginalAnn, createChangedAnn, ha, hb]
  · simp only [replacementStep, createOriginalAnn, createChangedAnn]
    rw [mapSet_length]

/-- Witness for C1 at the spec's example scenario: the page-0 operation
list `[delete("old text", rect=[10,20,50,12]),
insert("new words", rect=[10,20,60,12])]` yields exactly one
ChangeOperation, keyed `"10,20"`, with both texts, both flags, both
rectangles and two annotation identifiers. -/
theorem c1_replacement_single_entry_witness :
    (processOps exIds 0 [exDeleteOp, exInsertOp] {}).changes =
      [("10,20",
        { deleteText := some "old text", insertText := some "new words",
          del := true, insert := true, pageIndex := some 0,
          originalRect := some ⟨10, 20, 50, 12⟩,
          changedRect := some ⟨10, 20, 60, 12⟩,
          annotationIds := ["0", "1"] })] := by
  have h := c1_replacement_single_entry exIds 0 exDeleteOp exInsertOp [] {}
    "0" "1" rfl rfl rfl rfl
  rw [h.1]
  rfl

/-! ### C2 -/

/-- A standalone delete operation at origin (10,20). -/
def cexDelete1 : Operation :=
  ⟨.delete, "first", ⟨10, 20, 30, 12⟩, ⟨0, 0, 0, 0⟩⟩

/-- A second delete operation at the same origin (10,20), heading a
replacement pair. -/
def cexDelete2 : Operation :=
  ⟨.delete, "second", ⟨10, 20, 40, 12⟩, ⟨0, 0, 0, 0⟩⟩

/-- The entry written for the standalone `cexDelete1`. -/
def cexEntry1 : ChangeOperation :=
  { deleteText := some "first", del := true, pageIndex := some 0,
    originalRect := some ⟨10, 20, 30, 12⟩, annotationIds := ["0"] }

/-- The entry left at key "10,20" after the replacement pair
`(cexDelete2, exInsertOp)` is processed on top of `cexEntry1`. -/
def cexEntryFinal : ChangeOperation :=
  { deleteText := some "second", insertText := some "new words",
    del := true, insert := true, pageIndex := some 0,
    originalRect := some ⟨10, 20, 40, 12⟩,
    changedRect := some ⟨10, 20, 60, 12⟩, annotationIds := ["1", "2"] }

/-- Counterexample to C2 as stated: writing through the replacement path is
destructive.  Processing `[delete "first", delete "second", insert]` on one
page first records the entry for the standalone delete "first" (with its
annotation identifier "0"); the subsequent replacement pair shares the
coordinate key "10,20" but overwrites the entry wholesale: the previously
recorded annotation identifier "0" does not survive and the previously
recorded `deleteText` is replaced. -/
theorem c2_replacement_overwrite_counterexample :
    (processOps exIds 0 [cexDelete1] {}).changes = [("10,20", cexEntry1)] ∧
    cexEntry1.annotationIds = ["0"] ∧
    (processOps exIds 0 [cexDelete1, cexDelete2, exInsertOp] {}).changes =
      [("10,20", cexEntryFinal)] ∧
    "0" ∉ cexEntryFinal.annotationIds ∧
    cexEntryFinal.deleteText ≠ some "first" := by
  refine ⟨rfl, rfl, rfl, ?_, ?_⟩ <;> decide

/-- A pre-existing insert-only entry at key "10,20". -/
def wEntry : ChangeOperation :=
  { insertText := some "x", insert := true,
    changedRect := some ⟨10, 20, 9, 9⟩, annotationIds := ["z"] }

/-- An aggregation state already holding `wEntry` at key "10,20", with 5
creation calls already performed. -/
def wState : AggState :=
  { changes := [("10,20", wEntry)], counter := 5 }

/-- An insert operation whose changed-document rectangle has origin
(10,20). -/
def wInsertOp : Operation :=
  ⟨.insertOp, "y", ⟨0, 0, 0, 0⟩, ⟨10, 20, 9, 9⟩⟩

/-- C2 (amended): merging is non-destructive on the two standalone write
paths — a standalone delete (resp. insert) written at a key holding an
existing entry spreads the existing entry, so every field it does not set
survives and the new annotation identifier is appended to the existing
list; the replacement write path, however, stores a fresh object at the
key, ignoring any existing entry there. -/
theorem c2_merge_nondestructive_standalone
    (ids : Nat → Option String) (p : Nat) (s : AggState) :
    (∀ (op : Operation) (e : ChangeOperation), op.type = .delete →
      mapGet s.changes (coordinateKey op.originalRect) = some e →
      mapGet (processOperation ids p op s).changes
          (coordinateKey op.originalRect) =
        some { e with
               deleteText := some op.text
               del := true
               pageIndex := some p
               originalRect := some op.originalRect
               annotationIds :=
                 e.annotationIds ++ optToList (ids s.counter) }) ∧
    (∀ (op : Operation) (e : ChangeOperation), op.type = .insertOp →
      mapGet s.changes (coordinateKey op.changedRect) = some e →
      mapGet (processOperation ids p op s).changes
          (coordinateKey op.changedRect) =
        some { e with
               insertText := some op.text
               insert := true
               pageIndex := some p
               changedRect := some op.changedRect
               annotationIds :=
                 e.annotationIds ++ optToList (ids s.counter) }) ∧
    (∀ d i : Operation,
      (replacementStep ids p d i s).changes =
        mapSet s.changes (coordinateKey d.originalRect)
          { deleteText := some d.text, insertText := some i.text,
            del := true, insert := true, pageIndex := some p,
            originalRect := some d.originalRect,
            changedRect := some i.changedRect,
            annotationIds := optToList (ids s.counter) ++
              optToList (ids (s.counter + 1)) }) := by
  refine ⟨?_, ?_, ?_⟩
  · intro op e hd hme
    simp only [processOperation, hd, createOriginalAnn]
    rw [hme]
    exact mapGet_mapSet_self _ _ _
  · intro op e hi hme
    simp only [processOperation, hi, createChangedAnn]
    rw [hme]
    exact mapGet_mapSet_self _ _ _
  · intro d i
    simp [replacementStep, createOriginalAnn, createChangedAnn]

/-- Witness for the amended C2: a delete, an insert and a replacement pair
written at key "10,20" on top of the pre-existing insert-only entry
`wEntry` (the standalone paths preserve `wEntry`'s fields and append to its
annotation identifiers; the replacement path stores the fresh object). -/
theorem c2_merge_nondestructive_standalone_witness :
    mapGet (processOperation exIds 0 cexDelete1 wState).changes "10,20" =
      some { deleteText := some "first", insertText := some "x",
             del := true, insert := true, pageIndex := some 0,
             originalRect := some ⟨10, 20, 30, 12⟩,
             changedRect := some ⟨10, 20, 9, 9⟩,
             annotationIds := ["z", "5"] } ∧
    mapGet (processOperation exIds 0 wInsertOp wState).changes "10,20" =
      some { insertText := some "y", insert := true, pageIndex := some 0,
             changedRect := some ⟨10, 20, 9, 9⟩,
             annotationIds := ["z", "5"] } ∧
    (replacementStep exIds 0 cexDelete2 exInsertOp wState).changes =
      mapSet wState.changes "10,20"
        { deleteText := some "second", insertText := some "new words",
          del := true, insert := true, pageIndex := some 0,
          originalRect := some ⟨10, 20, 40, 12⟩,
          changedRect := some ⟨10, 20, 60, 12⟩,
          annotationIds := ["5", "6"] } := by
  have h := c2_merge_nondestructive_standalone exIds 0 wState
  exact ⟨h.1 cexDelete1 wEntry rfl rfl, h.2.1 wInsertOp wEntry rfl rfl,
    h.2.2 cexDelete2 exInsertOp⟩

/-! ### C5 -/

theorem processOperation_delete_shape (ids : Nat → Option String) (p : Nat)
    (op : Operation) (s : AggState) (hd : op.type = .delete) :
    ∃ v, (processOperation ids p op s).changes =
      mapSet s.changes (coordinateKey op.originalRect) v := by
  simp only [processOperation, hd, createOriginalAnn]
  cases hm : mapGet s.changes (coordinateKey op.originalRect) with
  | none => exact ⟨_, rfl⟩
  | some e => exact ⟨_, rfl⟩

theorem processOperation_insert_shape (ids : Nat → Option String) (p : Nat)
    (op : Operation) (s : AggState) (hi : op.type = .insertOp) :
    ∃ v, (processOperation ids p op s).changes =
      mapSet s.changes (coordinateKey op.changedRect) v := by
  simp only [processOperation, hi, createChangedAnn]
  cases hm : mapGet s.changes (coordinateKey op.changedRect) with
  | none => exact ⟨_, rfl⟩
  | some e => exact ⟨_, rfl⟩

theorem replacementStep_shape (ids : Nat → Option String) (p : Nat)
    (d i : Operation) (s : AggState) :
    ∃ v, (replacementStep ids p d i s).changes =
      mapSet s.changes (coordinateKey d.originalRect) v := by
  exact ⟨_, rfl⟩

theorem processOperationPageTsx_shape (p : Nat) (op : Operation)
    (s : PageTsxState) (h : op.type = .delete ∨ op.type = .insertOp) :
    ∃ v, (processOperationPageTsx p op s).changes =
      mapSet s.changes (coordinateKey op.changedRect) v := by
  rcases h with h | h <;>
  · simp only [processOperationPageTsx, h]
    cases hm : mapGet s.changes (coordinateKey op.changedRect) with
    | none => exact ⟨_, rfl⟩
    | some e => exact ⟨_, rfl⟩

/-- Counterexample to C5 as stated: in the pageTsx variant a delete
operation is keyed by the *changed* (insert) document's rectangle origin,
not the delete document's.  `cexDelete1` has original-document origin
(10,20) but changed-document origin (0,0): the entry lands at key "0,0"
and no entry exists at key "10,20". -/
theorem c5_pagetsx_delete_key_counterexample :
    mapGet (processOperationPageTsx 0 cexDelete1 {}).changes "10,20" = none ∧
    mapGet (processOperationPageTsx 0 cexDelete1 {}).changes "0,0" =
      some { deleteText := some "first", del := true, pageIndex := some 0 } := by
  exact ⟨rfl, rfl⟩

/-- C5 (amended): in the main aggregator the coordinate key of every write
is the string of the (x,y) origin of the affected text block taken from the
original document's coordinate space for deletes and replacement pairs and
from the changed document's coordinate space for inserts (every write
touches exactly that key and leaves all other keys unchanged); in the
pageTsx variant the key is always taken from the changed document's
coordinate space, even for delete operations. -/
theorem c5_coordinate_key_source (ids : Nat → Option String) (p : Nat)
    (s : AggState) (sT : PageTsxState) :
    (∀ op : Operation, op.type = .delete →
      (mapGet (processOperation ids p op s).changes
        (coordinateKey op.originalRect)).isSome = true ∧
      ∀ k, k ≠ coordinateKey op.originalRect →
        mapGet (processOperation ids p op s).changes k =
          mapGet s.changes k) ∧
    (∀ op : Operation, op.type = .insertOp →
      (mapGet (processOperation ids p op s).changes
        (coordinateKey op.changedRect)).isSome = true ∧
      ∀ k, k ≠ coordinateKey op.changedRect →
        mapGet (processOperation ids p op s).changes k =
          mapGet s.changes k) ∧
    (∀ d i : Operation,
      (mapGet (replacementStep ids p d i s).changes
        (coordinateKey d.originalRect)).isSome = true ∧
      ∀ k, k ≠ coordinateKey d.originalRect →
        mapGet (replacementStep ids p d i s).changes k =
          mapGet s.changes k) ∧
    (∀ op : Operation, op.type = .delete ∨ op.type = .insertOp →
      (mapGet (processOperationPageTsx p op sT).changes
        (coordinateKey op.changedRect)).isSome = true ∧
      ∀ k, k ≠ coordinateKey op.changedRect →
        mapGet (processOperationPageTsx p op sT).changes k =
          mapGet sT.changes k) := by
  refine ⟨?_, ?_, ?_, ?_⟩
  · intro op hd
    obtain ⟨v, hv⟩ := processOperation_delete_shape ids p op s hd
    rw [hv]
    exact ⟨by rw [mapGet_mapSet_self]; rfl,
      fun k hk => mapGet_mapSet_ne _ _ _ _ hk⟩
  · intro op hi
    obtain ⟨v, hv⟩ := processOperation_insert_shape ids p op s hi
    rw [hv]
    exact ⟨by rw [mapGet_mapSet_self]; rfl,
      fun k hk => mapGet_mapSet_ne _ _ _ _ hk⟩
  · intro d i
    obtain ⟨v, hv⟩ := replacementStep_shape ids p d i s
    rw [hv]
    exact ⟨by rw [mapGet_mapSet_self]; rfl,
      fun k hk => mapGet_mapSet_ne _ _ _ _ hk⟩
  · intro op h
    obtain ⟨v, hv⟩ := processOperationPageTsx_shape p op sT h
    rw [hv]
    exact ⟨by rw [mapGet_mapSet_self]; rfl,
      fun k hk => mapGet_mapSet_ne _ _ _ _ hk⟩

/-- Witness for the amended C5 at concrete operations: the delete is keyed
"10,20" (its original-document origin), the insert "10,20" (its
changed-document origin), the replacement by the delete's original-document
origin, and the pageTsx delete by its changed-document origin "0,0". -/
theorem c5_coordinate_key_source_witness :
    (mapGet (processOperation exIds 0 cexDelete1 {}).changes "10,20").isSome
      = true ∧
    (mapGet (processOperation exIds 0 wInsertOp {}).changes "10,20").isSome
      = true ∧
    (mapGet (replacementStep exIds 0 cexDelete2 exInsertOp {}).changes
      "10,20").isSome = true ∧
    (mapGet (processOperationPageTsx 0 cexDelete1 {}).changes "0,0").isSome
      = true ∧
    mapGet (processOperation exIds 0 cexDelete1 {}).changes "7,7" =
      mapGet ({} : AggState).changes "7,7" := by
  have h := c5_coordinate_key_source exIds 0 {} {}
  exact ⟨(h.1 cexDelete1 rfl).1, (h.2.1 wInsertOp rfl).1,
    (h.2.2.1 cexDelete2 exInsertOp).1, (h.2.2.2 cexDelete1 (Or.inl rfl)).1,
    (h.1 cexDelete1 rfl).2 "7,7" (by decide)⟩

/-! ### C6 -/

theorem mapHas_iff_mem_keys (m : ChangeMap) (k : String) :
    mapHas m k = true ↔ k ∈ m.map Prod.fst := by
  simp only [mapHas, List.any_eq_true, List.mem_map]
  constructor
  · rintro ⟨e, he, hk⟩
    exact ⟨e, he, eq_of_beq hk⟩
  · rintro ⟨e, he, hk⟩
    exact ⟨e, he, beq_iff_eq.2 hk⟩

theorem keys_mapSet (m : ChangeMap) (k : String) (v : ChangeOperation) :
    (mapSet m k v).map Prod.fst =
      if mapHas m k then m.map Prod.fst else m.map Prod.fst ++ [k] := by
  by_cases h : mapHas m k
  · rw [mapSet_of_has m k v h, if_pos h, List.map_map]
    apply List.map_congr_left
    intro e _
    by_cases he : (e.1 == k) = true
    · simp [Function.comp, he, eq_of_beq he]
    · simp [Function.comp, Bool.eq_false_iff.2 he]
  · rw [mapSet_of_not_has m k v (Bool.eq_false_iff.2 h), if_neg h,
      List.map_append]
    rfl

theorem nodup_keys_mapSet (m : ChangeMap) (k : String) (v : ChangeOperation)
    (h : (m.map Prod.fst).Nodup) : ((mapSet m k v).map Prod.fst).Nodup := by
  rw [keys_mapSet]
  by_cases hh : mapHas m k
  · rwa [if_pos hh]
  · rw [if_neg hh]
    have hk : k ∉ m.map Prod.fst := fun hc =>
      hh ((mapHas_iff_mem_keys m k).2 hc)
    simp [List.nodup_append, h, hk]

theorem nodup_keys_foldl_mapSet :
    ∀ (l : List (String × ChangeOperation)) (acc : ChangeMap),
      (acc.map Prod.fst).Nodup →
      ((l.foldl (fun m e => mapSet m e.1 e.2) acc).map Prod.fst).Nodup := by
  intro l
  induction l with
  | nil => intro acc h; exact h
  | cons e t ih =>
    intro acc h
    rw [List.foldl_cons]
    exact ih (mapSet acc e.1 e.2) (nodup_keys_mapSet acc e.1 e.2 h)

theorem nodup_keys_mapFromEntries (l : List (String × ChangeOperation)) :
    ((mapFromEntries l).map Prod.fst).Nodup :=
  nodup_keys_foldl_mapSet l [] List.nodup_nil

theorem countP_key_eq_one (m : ChangeMap) (k : String)
    (hnd : (m.map Prod.fst).Nodup) (hmem : mapHas m k = true) :
    m.countP (fun e => e.1 == k) = 1 := by
  induction m with
  | nil => cases hmem
  | cons e t ih =>
    rw [List.map_cons, List.nodup_cons] at hnd
    rw [List.countP_cons]
    by_cases he : (e.1 == k) = true
    · have hzero : t.countP (fun e => e.1 == k) = 0 := by
        rw [List.countP_eq_zero]
        intro e' he' hb
        apply hnd.1
        rw [eq_of_beq he]
        exact List.mem_map.2 ⟨e', he', eq_of_beq hb⟩
      rw [hzero, he]
      rfl
    · have he' : (e.1 == k) = false := Bool.eq_false_iff.2 he
      rw [mapHas_cons, he', Bool.false_or] at hmem
      rw [ih hnd.2 hmem, he']
      rfl

theorem mapGet_foldl_of_no_key :
    ∀ (l : List (String × ChangeOperation)) (acc : ChangeMap) (k : String),
      (∀ e ∈ l, e.1 ≠ k) →
      mapGet (l.foldl (fun m e => mapSet m e.1 e.2) acc) k =
        mapGet acc k := by
  intro l
  induction l with
  | nil => intro acc k _; rfl
  | cons e t ih =>
    intro acc k h
    rw [List.foldl_cons,
      ih (mapSet acc e.1 e.2) k (fun e' he' => h e' (List.mem_cons_of_mem e he')),
      mapGet_mapSet_ne _ _ _ _ (fun hc => h e (List.mem_cons_self e t) hc.symm)]

theorem mapGet_mergeMaps_right (g c : ChangeMap) (k : String)
    (v2 : ChangeOperation) (hc : (c.map Prod.fst).Nodup)
    (h2 : mapGet c k = some v2) :
    mapGet (mergeMaps g c) k = some v2 := by
  unfold mergeMaps mapFromEntries
  rw [List.foldl_append]
  have hgen : ∀ (c' : ChangeMap) (acc : ChangeMap),
      (c'.map Prod.fst).Nodup → mapGet c' k = some v2 →
      mapGet (c'.foldl (fun m e => mapSet m e.1 e.2) acc) k = some v2 := by
    intro c'
    induction c' with
    | nil => intro acc _ h; cases h
    | cons e t ih =>
      intro acc hnd h
      rw [List.map_cons, List.nodup_cons] at hnd
      rw [List.foldl_cons]
      by_cases he : (e.1 == k) = true
      · have hek : e.1 = k := eq_of_beq he
        have hfind : List.find? (fun x => x.1 == k) (e :: t) = some e :=
          List.find?_cons_of_pos _ he
        have hv : v2 = e.2 := by
          rw [mapGet, hfind] at h
          cases h
          rfl
        have hnot : ∀ e' ∈ t, e'.1 ≠ k := by
          intro e' he' hc'
          exact hnd.1 (hek ▸ hc' ▸ List.mem_map_of_mem Prod.fst he')
        rw [mapGet_foldl_of_no_key t _ k hnot, hv, ← hek,
          mapGet_mapSet_self]
      · have he' : (e.1 == k) = false := Bool.eq_false_iff.2 he
        have hfind : List.find? (fun x => x.1 == k) (e :: t) =
            List.find? (fun x => x.1 == k) t :=
          List.find?_cons_of_neg _ (by simp [he'])
        rw [mapGet, hfind] at h
        exact ih _ hnd.2 h
  exact hgen c _ hc h2

/-- C6: the coordinate key carries no page index, so when an earlier page's
global map and a later page's change map both hold an entry at the same
(x,y) key, the cross-page merge `new Map([...global, ...pageChanges])`
keeps exactly one entry at that key, and its value is the later page's
entry — the earlier page's entry is overwritten, not retained alongside. -/
theorem c6_cross_page_key_collision (g c : ChangeMap) (k : String)
    (v1 v2 : ChangeOperation) (hc : (c.map Prod.fst).Nodup)
    (_h1 : mapGet g k = some v1) (h2 : mapGet c k = some v2) :
    mapGet (mergeMaps g c) k = some v2 ∧
    (mergeMaps g c).countP (fun e => e.1 == k) = 1 := by
  have hget := mapGet_mergeMaps_right g c k v2 hc h2
  have hnd2 : ((mergeMaps g c).map Prod.fst).Nodup := by
    unfold mergeMaps
    exact nodup_keys_mapFromEntries _
  have hhas : mapHas (mergeMaps g c) k = true := by
    by_contra hfalse
    have hnone := mapGet_eq_none_of_not_has (mergeMaps g c) k
      (Bool.eq_false_iff.2 hfalse)
    rw [hget] at hnone
    cases hnone
  exact ⟨hget, countP_key_eq_one _ _ hnd2 hhas⟩

/-- A one-page comparison result holding a single delete operation. -/
def c6PageResult (t : String) (r : Rect) : ComparisonResult :=
  ComparisonResult.withResults
    [{ comparisonResults :=
        [{ hunks :=
            [{ operations := [⟨OpType.delete, t, r, ⟨0, 0, 0, 0⟩⟩] }] }] }]

/-- The global state after processing page 0 then page 1, each page
contributing one delete whose text block has origin (10,20). -/
def c6TwoPages : GlobalState :=
  runPage exIds 1 (c6PageResult "page one" ⟨10, 20, 99, 12⟩)
    (runPage exIds 0 (c6PageResult "page zero" ⟨10, 20, 30, 12⟩) {})

/-- The entry contributed by page 0. -/
def c6Entry0 : ChangeOperation :=
  { deleteText := some "page zero", del := true, pageIndex := some 0,
    originalRect := some ⟨10, 20, 30, 12⟩, annotationIds := ["0"] }

/-- The entry contributed by page 1. -/
def c6Entry1 : ChangeOperation :=
  { deleteText := some "page one", del := true, pageIndex := some 1,
    originalRect := some ⟨10, 20, 99, 12⟩, annotationIds := ["1"] }

/-- Witness for C6: two pages each contribute a change at origin (10,20);
after the per-page loop the global map holds exactly one entry at key
"10,20", and it is page 1's entry (page 0's entry was overwritten). -/
theorem c6_cross_page_key_collision_witness :
    c6TwoPages.operationsMapRef =
      mergeMaps [("10,20", c6Entry0)] [("10,20", c6Entry1)] ∧
    mapGet (mergeMaps [("10,20", c6Entry0)] [("10,20", c6Entry1)]) "10,20" =
      some c6Entry1 ∧
    (mergeMaps [("10,20", c6Entry0)] [("10,20", c6Entry1)]).countP
      (fun e => e.1 == "10,20") = 1 ∧
    c6Entry1.pageIndex = some 1 := by
  have h := c6_cross_page_key_collision [("10,20", c6Entry0)]
    [("10,20", c6Entry1)] "10,20" c6Entry0 c6Entry1 (by simp) rfl rfl
  exact ⟨rfl, h.1, h.2, rfl⟩

/-! ### C10 -/

/-- An `equal`-tagged operation used as a concrete test input. -/
def c10EqualOp : Operation :=
  ⟨.equal, "same text", ⟨1, 2, 3, 4⟩, ⟨1, 2, 3, 4⟩⟩

/-- C10: `equal`-tagged operations never produce a ChangeOperation or an
annotation: the per-hunk filter removes them before the cursor walk (the
filtered list contains no equal operation), inserting an equal operation
anywhere in a hunk leaves the resulting page state bit-for-bit unchanged in
both variants, and the per-operation switch itself ignores an equal
operation. -/
theorem c10_equal_ops_inert (ids : Nat → Option String) (p : Nat)
    (eq1 : Operation) (heq : eq1.type = .equal)
    (l1 l2 : List Operation) (s : AggState) (sT : PageTsxState) :
    (l1 ++ eq1 :: l2).filter (fun op => op.type ≠ .equal) =
      (l1 ++ l2).filter (fun op => op.type ≠ .equal) ∧
    (∀ op ∈ (l1 ++ eq1 :: l2).filter (fun op => op.type ≠ .equal),
      op.type ≠ .equal) ∧
    runHunk ids p ⟨l1 ++ eq1 :: l2⟩ s = runHunk ids p ⟨l1 ++ l2⟩ s ∧
    processOperation ids p eq1 s = s ∧
    runHunkPageTsx p ⟨l1 ++ eq1 :: l2⟩ sT = runHunkPageTsx p ⟨l1 ++ l2⟩ sT ∧
    processOperationPageTsx p eq1 sT = sT := by
  have hfilter : (l1 ++ eq1 :: l2).filter (fun op => op.type ≠ .equal) =
      (l1 ++ l2).filter (fun op => op.type ≠ .equal) := by
    rw [List.filter_append, List.filter_append,
      List.filter_cons_of_neg (by simp [heq])]
  refine ⟨hfilter, ?_, ?_, ?_, ?_, ?_⟩
  · intro op hop
    exact of_decide_eq_true (List.mem_filter.1 hop).2
  · unfold runHunk
    rw [hfilter]
  · simp [processOperation, heq]
  · unfold runHunkPageTsx
    rw [List.foldl_append, List.foldl_append, List.foldl_cons,
      if_neg (by simp [heq])]
  · simp [processOperationPageTsx, heq]

/-- Witness for C10: sliding the equal operation into the example
delete/insert pair changes nothing in either variant, and the
per-operation switch ignores it. -/
theorem c10_equal_ops_inert_witness :
    runHunk exIds 0 ⟨[exDeleteOp, c10EqualOp, exInsertOp]⟩ {} =
      runHunk exIds 0 ⟨[exDeleteOp, exInsertOp]⟩ {} ∧
    processOperation exIds 0 c10EqualOp {} = {} ∧
    runHunkPageTsx 0 ⟨[exDeleteOp, c10EqualOp, exInsertOp]⟩ {} =
      runHunkPageTsx 0 ⟨[exDeleteOp, exInsertOp]⟩ {} ∧
    processOperationPageTsx 0 c10EqualOp {} = {} := by
  have h := c10_equal_ops_inert exIds 0 c10EqualOp rfl [exDeleteOp]
    [exInsertOp] {} {}
  exact ⟨h.2.2.1, h.2.2.2.1, h.2.2.2.2.1, h.2.2.2.2.2⟩

/-! ### C9 -/

/-- C9: a page whose comparison result does not carry the expected
`documentComparisonResults` collection contributes zero ChangeOperations
and zero annotations: the guarded block is skipped, the page state is
returned unchanged (there is no error path in the model, matching the
absence of any throw or error branch in the code), and the per-page loop
continues with the remaining pages. -/
theorem c9_malformed_page_skipped (ids : Nat → Option String) (p : Nat)
    (rest : List ComparisonResult) (g : GlobalState) (s : AggState)
    (hnd : (g.operationsMapRef.map Prod.fst).Nodup) :
    processPage ids p ComparisonResult.malformed s = s ∧
    runPage ids p ComparisonResult.malformed g = g ∧
    runPages ids p (ComparisonResult.malformed :: rest) g =
      runPages ids (p + 1) rest g := by
  have hm : mergeMaps g.operationsMapRef [] = g.operationsMapRef := by
    unfold mergeMaps
    rw [List.append_nil]
    exact mapFromEntries_eq_self _ hnd
  have h2 : runPage ids p ComparisonResult.malformed g = g := by
    show ({ operationsMapRef := mergeMaps g.operationsMapRef [],
            originalAnns := g.originalAnns, changedAnns := g.changedAnns,
            counter := g.counter } : GlobalState) = g
    rw [hm]
  refine ⟨rfl, h2, ?_⟩
  rw [runPages, h2]

/-- A global state holding one prior entry, used as the C9 witness input. -/
def c9Global : GlobalState :=
  { operationsMapRef := [("10,20", cexEntry1)] }

/-- Witness for C9 at a concrete global state: the malformed page leaves
everything unchanged and the loop proceeds to the next page index. -/
theorem c9_malformed_page_skipped_witness :
    processPage exIds 3 ComparisonResult.malformed {} = {} ∧
    runPage exIds 3 ComparisonResult.malformed c9Global = c9Global ∧
    runPages exIds 3 [ComparisonResult.malformed] c9Global =
      runPages exIds 4 [] c9Global := by
  exact c9_malformed_page_skipped exIds 3 [] c9Global {} (by decide)

/-! ### C8 -/

/-- Counterexample to C8 as stated: for the whitespace-only string " " the
trimmed text is empty and has zero maximal whitespace-separated runs, yet
`countWords` returns 1 (JavaScript's "".split(/\s+/) is [""], of length 1),
not 0 as the claim requires for every whitespace-only string. -/
theorem c8_whitespace_only_counterexample :
    countWords (some " ") = 1 ∧ jsTrim " " = "" ∧
    specWordRuns (jsTrim " ") = 0 := by
  exact ⟨rfl, rfl, rfl⟩

/-- C8 (amended): the word count of an absent value or of the (falsy)
empty string is 0; for a non-empty string whose trimmed form is non-empty
it equals the number of maximal whitespace-separated runs of the trimmed
text; but for a non-empty whitespace-only string (trimmed form empty) it is
1, not 0. -/
theorem c8_count_words (s : String) :
    countWords none = 0 ∧
    countWords (some "") = 0 ∧
    (s ≠ "" → jsTrim s = "" → countWords (some s) = 1) ∧
    (s ≠ "" → jsTrim s ≠ "" →
      countWords (some s) = specWordRuns (jsTrim s)) := by
  refine ⟨rfl, rfl, ?_, ?_⟩
  · intro hne htrim
    rw [countWords_of_ne_empty s hne, (jsTrim_eq_empty_iff s).1 htrim]
    rfl
  · intro hne htrim
    have ht : jsTrimList s.data ≠ [] := fun hc =>
      htrim ((jsTrim_eq_empty_iff s).2 hc)
    rw [countWords_of_ne_empty s hne, specWordRuns_trim s ht]
    omega

/-- Witness for the amended C8 at the spec's example: the count of
"  hello   world  " equals the number of runs of its trimmed form, which
is 2, and the count of an absent value is 0. -/
theorem c8_count_words_witness :
    countWords (some "  hello   world  ") =
      specWordRuns (jsTrim "  hello   world  ") ∧
    specWordRuns (jsTrim "  hello   world  ") = 2 ∧
    countWords none = 0 := by
  have h := c8_count_words "  hello   world  "
  exact ⟨h.2.2.2 (by decide) (by decide), rfl, h.1⟩

/-! ### C7 -/

/-- C7: next/previous navigation clamps at the bounds of the ordered change
map with no wraparound: previous while the selected index is 0, and next
while it is the last index, return the state unchanged with no scroll and
no annotation effects. -/
theorem c7_navigation_clamps (st : NavState) :
    (st.selectedChangeIndex = 0 → handlePreviousChange st = some (st, [])) ∧
    (st.selectedChangeIndex = st.operationsMap.length - 1 →
      handleNextChange st = some (st, [])) := by
  constructor
  · intro h
    unfold handlePreviousChange
    rw [h]
    rfl
  · intro hidx
    have hguard : ¬ ((st.selectedChangeIndex : Int) <
        (st.operationsMap.length : Int) - 1) := by
      rw [hidx]
      omega
    unfold handleNextChange
    rw [if_neg hguard]

/-- Witness for C7 on a one-entry change map with the single index 0
selected: both previous and next are no-ops. -/
theorem c7_navigation_clamps_witness :
    handlePreviousChange ⟨[("10,20", cexEntry1)], 0, true⟩ =
      some (⟨[("10,20", cexEntry1)], 0, true⟩, []) ∧
    handleNextChange ⟨[("10,20", cexEntry1)], 0, true⟩ =
      some (⟨[("10,20", cexEntry1)], 0, true⟩, []) := by
  have h := c7_navigation_clamps ⟨[("10,20", cexEntry1)], 0, true⟩
  exact ⟨h.1 rfl, h.2 rfl⟩

/-! ### C3 -/

/-- C3: with the scroll lock off, a synchronization pass in either
direction (as triggered by any scroll, page-change or zoom-change event)
returns the system unchanged — zero mutations of either view's page index,
zoom or scroll offsets; after toggling the lock back on, the same passes
resume synchronizing: the pass copies the source view's page index to the
counterpart, and when the page indices already agree it copies the zoom and
the raw scroll offsets. -/
theorem c3_scroll_lock_off_no_mutation (sys : SyncSystem)
    (hl : sys.isScrollLocked = false) (hsy : sys.syncing = false) :
    syncChangedToOriginal sys = sys ∧
    syncOriginalToChanged sys = sys ∧
    (syncChangedToOriginal (toggleScrollLock sys)).original.viewState.currentPageIndex
      = sys.changed.viewState.currentPageIndex ∧
    (syncOriginalToChanged (toggleScrollLock sys)).changed.viewState.currentPageIndex
      = sys.original.viewState.currentPageIndex ∧
    (sys.original.viewState.currentPageIndex =
        sys.changed.viewState.currentPageIndex →
      (syncChangedToOriginal (toggleScrollLock sys)).original.viewState.zoom
        = sys.changed.viewState.zoom ∧
      (syncChangedToOriginal (toggleScrollLock sys)).original.scroll
        = sys.changed.scroll) := by
  have htl : (toggleScrollLock sys).isScrollLocked = true := by
    simp [toggleScrollLock, hl]
  have hts : (toggleScrollLock sys).syncing = false := hsy
  have htO : (toggleScrollLock sys).original = sys.original := rfl
  have htC : (toggleScrollLock sys).changed = sys.changed := rfl
  have hrun1 : syncChangedToOriginal (toggleScrollLock sys) =
      exitPass (applySteps
        (passSteps (toggleScrollLock sys) .changedToOriginal)
        (enterPass (toggleScrollLock sys))) :=
    runSyncPass_run _ _ htl hts
  have hrun2 : syncOriginalToChanged (toggleScrollLock sys) =
      exitPass (applySteps
        (passSteps (toggleScrollLock sys) .originalToChanged)
        (enterPass (toggleScrollLock sys))) :=
    runSyncPass_run _ _ htl hts
  refine ⟨runSyncPass_not_locked _ sys hl, runSyncPass_not_locked _ sys hl,
    ?_, ?_, ?_⟩
  · rw [hrun1]
    by_cases hz : sys.original.viewState.zoom ≠ sys.changed.viewState.zoom <;>
    by_cases hp : sys.original.viewState.currentPageIndex ≠
        sys.changed.viewState.currentPageIndex <;>
      simp [passSteps, srcView, tgtView, applySteps, enterPass, exitPass,
        setTgtViewState, copyScrollStep, htO, htC, hz, hp] <;>
      omega
  · rw [hrun2]
    by_cases hz : sys.changed.viewState.zoom ≠ sys.original.viewState.zoom <;>
    by_cases hp : sys.changed.viewState.currentPageIndex ≠
        sys.original.viewState.currentPageIndex <;>
      simp [passSteps, srcView, tgtView, applySteps, enterPass, exitPass,
        setTgtViewState, copyScrollStep, htO, htC, hz, hp] <;>
      omega
  · intro hpe
    rw [hrun1]
    by_cases hz : sys.original.viewState.zoom ≠ sys.changed.viewState.zoom <;>
      simp [passSteps, srcView, tgtView, applySteps, enterPass, exitPass,
        setTgtViewState, copyScrollStep, htO, htC, hz, hpe] <;>
      omega

/-- A system with the lock off, equal page indices, and differing zoom and
scroll, used as the C3 witness input. -/
def c3Sys : SyncSystem :=
  { original := { viewState := { currentPageIndex := 2, zoom := 1 },
                  scroll := { scrollTop := 0, scrollLeft := 0 } },
    changed := { viewState := { currentPageIndex := 2, zoom := 3 },
                 scroll := { scrollTop := 5, scrollLeft := 7 } },
    isScrollLocked := false, syncing := false }

/-- Witness for C3: with the lock off both passes leave `c3Sys` untouched;
after toggling the lock back on, the changed-to-original pass copies zoom 3
and scroll (5,7) onto the original view (the pages already agree at 2). -/
theorem c3_scroll_lock_off_no_mutation_witness :
    syncChangedToOriginal c3Sys = c3Sys ∧
    syncOriginalToChanged c3Sys = c3Sys ∧
    (syncChangedToOriginal (toggleScrollLock c3Sys)).original.viewState.currentPageIndex
      = 2 ∧
    (syncChangedToOriginal (toggleScrollLock c3Sys)).original.viewState.zoom
      = 3 ∧
    (syncChangedToOriginal (toggleScrollLock c3Sys)).original.scroll =
      { scrollTop := 5, scrollLeft := 7 } := by
  have h := c3_scroll_lock_off_no_mutation c3Sys rfl rfl
  exact ⟨h.1, h.2.1, h.2.2.1, (h.2.2.2.2 rfl).1, (h.2.2.2.2 rfl).2⟩

/-! ### C4 -/

/-- C4: synchronization never recurses.  For a pass admitted by the guard
(lock on, not already syncing): at every point during the pass — after any
prefix of its engine calls — the `syncing` flag reads true, so a re-entrant
invocation of either synchronization handler at that point returns the
state unchanged; the flag is set once on entry and cleared once by the
`finally` block, so the final state has `syncing = false` even when the
`try` block throws after any number `k` of its engine calls; and the
completed pass coincides with the aborted pass run to full length. -/
theorem c4_sync_never_recurses (sys : SyncSystem) (d : SyncDir) (j k : Nat)
    (hl : sys.isScrollLocked = true) (hs : sys.syncing = false) :
    (applySteps ((passSteps sys d).take j) (enterPass sys)).syncing = true ∧
    syncChangedToOriginal
        (applySteps ((passSteps sys d).take j) (enterPass sys)) =
      applySteps ((passSteps sys d).take j) (enterPass sys) ∧
    syncOriginalToChanged
        (applySteps ((passSteps sys d).take j) (enterPass sys)) =
      applySteps ((passSteps sys d).take j) (enterPass sys) ∧
    (runSyncPassAborted d sys k).syncing = false ∧
    (runSyncPass d sys).syncing = false ∧
    runSyncPass d sys = runSyncPassAborted d sys (passSteps sys d).length := by
  have hmid := midPass_syncing sys d j
  refine ⟨hmid, runSyncPass_of_syncing _ _ hmid,
    runSyncPass_of_syncing _ _ hmid, ?_, ?_, ?_⟩
  · unfold runSyncPassAborted
    rw [hl, hs]
    rfl
  · rw [runSyncPass_run d sys hl hs]
    rfl
  · rw [runSyncPass_run d sys hl hs]
    unfold runSyncPassAborted
    rw [hl, hs, List.take_length]
    rfl

/-- A locked, idle system whose two views disagree in page, zoom and
scroll, used as the C4 witness input. -/
def c4Sys : SyncSystem :=
  { original := { viewState := { currentPageIndex := 0, zoom := 1 },
                  scroll := { scrollTop := 0, scrollLeft := 0 } },
    changed := { viewState := { currentPageIndex := 2, zoom := 3 },
                 scroll := { scrollTop := 50, scrollLeft := 7 } },
    isScrollLocked := true, syncing := false }

/-- Witness for C4 on `c4Sys`, direction changed-to-original, observed
after one engine call (`j = 1`) and with a throw before any call
(`k = 0`). -/
theorem c4_sync_never_recurses_witness :
    (applySteps ((passSteps c4Sys .changedToOriginal).take 1)
      (enterPass c4Sys)).syncing = true ∧
    syncChangedToOriginal (applySteps
        ((passSteps c4Sys .changedToOriginal).take 1) (enterPass c4Sys)) =
      applySteps ((passSteps c4Sys .changedToOriginal).take 1)
        (enterPass c4Sys) ∧
    syncOriginalToChanged (applySteps
        ((passSteps c4Sys .changedToOriginal).take 1) (enterPass c4Sys)) =
      applySteps ((passSteps c4Sys .changedToOriginal).take 1)
        (enterPass c4Sys) ∧
    (runSyncPassAborted .changedToOriginal c4Sys 0).syncing = false ∧
    (runSyncPass .changedToOriginal c4Sys).syncing = false ∧
    runSyncPass .changedToOriginal c4Sys =
      runSyncPassAborted .changedToOriginal c4Sys
        (passSteps c4Sys .changedToOriginal).length :=
  c4_sync_never_recurses c4Sys .changedToOriginal 1 0 rfl rfl

end TextComparison
